import Mathlib

/-!
Shallow embedding of the strace-to-duckdb core: the line parser
(src/parser.rs), the per-file processor and pid extraction
(src/processor.rs), the sequential driver loop (src/main.rs) and the
parallel aggregation (src/parallel_processor.rs).

Modelling conventions:
* Rust `&str` values are lists of characters (`Str`).  Every byte index the
  source computes comes from `find`/`rfind` of an ASCII pattern and is used
  only to slice at that pattern's boundary, so character positions model the
  byte positions faithfully.
* Rust's two-ended slice expressions `&s[a..b]` panic when `a > b` (or
  `b > s.len()`); the model makes this explicit: `sliceS` is partial, and
  the parsers compute in the three-valued type `POpt` whose `panic`
  constructor models a Rust panic, distinct from the `none` of a normal
  parse failure.  A panic propagates: it aborts the line, the file scan,
  the sequential run (`sequentialDriver` returns `Option.none`) and the
  executing worker (`workerRun` returns `Option.none`; the real program's
  aggregate after a worker dies depends on scheduling details that are not
  modelled, so every pipeline theorem below hypothesises panic-freedom).
* `i64`/`i32` parsing is modelled on `Int` with the exact overflow range
  checks of `from_str_radix` / `parse` (failure is `none`).
* The only use the source makes of `f64` parsing is deciding whether the
  duration field is `Some` or `None`; the model stores the raw text of the
  duration literal and decides success by the grammar accepted by Rust's
  `f64::from_str` (which never fails on overflow, only on grammar).
* The time accumulators of `ProcessStats` are wall-clock measurements and
  are not modelled; the counter fields are.
-/

namespace StraceSpec

abbrev Str := List Char

/-- Position of the first occurrence of character `c`, as `str::find`. -/
def findChar (c : Char) : Str → Option Nat
  | [] => none
  | x :: xs => if x = c then some 0 else (findChar c xs).map (· + 1)

/-- Position of the last occurrence of character `c`, as `str::rfind`. -/
def rfindChar (c : Char) : Str → Option Nat
  | [] => none
  | x :: xs =>
    match rfindChar c xs with
    | some i => some (i + 1)
    | none => if x = c then some 0 else none

/-- Position of the first occurrence of substring `pat`, as `str::find` with
a string pattern. -/
def findSub (pat : Str) : Str → Option Nat
  | [] => if pat.isEmpty then some 0 else none
  | x :: xs => if pat.isPrefixOf (x :: xs) then some 0 else (findSub pat xs).map (· + 1)

/-- Substring containment, as `str::contains`. -/
def containsSub (pat s : Str) : Bool := (findSub pat s).isSome

/-- `str::split_once(c)`: the parts strictly before and after the first `c`. -/
def splitOnce (c : Char) (s : Str) : Option (Str × Str) :=
  (findChar c s).map fun i => (s.take i, s.drop (i + 1))

/-- `str::strip_prefix(pat)`. -/
def stripPre (pat s : Str) : Option Str :=
  if pat.isPrefixOf s then some (s.drop pat.length) else none

/-- Whitespace test used by `str::trim`; ASCII whitespace (the source's
inputs are ASCII, where Rust's `char::is_whitespace` agrees). -/
def isWS (c : Char) : Bool := c.isWhitespace

/-- `str::trim_start`. -/
def trimStart (s : Str) : Str := s.dropWhile isWS

/-- `str::trim_end`. -/
def trimEnd (s : Str) : Str := (s.reverse.dropWhile isWS).reverse

/-- `str::trim`. -/
def trimS (s : Str) : Str := trimEnd (trimStart s)

/-- The slice `s[a..b]`: defined exactly when `a ≤ b ≤ s.len()`; `none`
models the Rust panic on an out-of-range slice. -/
def sliceS (s : Str) (a b : Nat) : Option Str :=
  if a ≤ b ∧ b ≤ s.length then some ((s.take b).drop a) else none

/-- Outcome of a computation that can panic: `panic` models a Rust panic,
`none` a normal `None` return, `some` a produced value. -/
inductive POpt (α : Type) : Type where
  | panic : POpt α
  | none : POpt α
  | some : α → POpt α
deriving DecidableEq, Repr

/-- Sequencing of panic-aware computations: panic and failure propagate. -/
def POpt.bind {α β : Type} : POpt α → (α → POpt β) → POpt β
  | POpt.panic, _ => POpt.panic
  | POpt.none, _ => POpt.none
  | POpt.some a, f => f a

/-- A Rust `?` on an Option inside a panic-aware computation: `None` makes
the surrounding function return `None`. -/
def qTry {α β : Type} (o : Option α) (f : α → POpt β) : POpt β :=
  match o with
  | Option.none => POpt.none
  | Option.some a => f a

/-- A Rust slice expression inside a panic-aware computation: an undefined
slice is a panic. -/
def pSlice {β : Type} (o : Option Str) (f : Str → POpt β) : POpt β :=
  match o with
  | Option.none => POpt.panic
  | Option.some a => f a

/-- `str::splitn(2, c)` viewed as first part plus optional remainder. -/
def splitn2 (c : Char) (s : Str) : Str × Option Str :=
  match splitOnce c s with
  | none => (s, none)
  | some p => (p.1, some p.2)

/-- Value of one hexadecimal digit, as accepted by `from_str_radix(_, 16)`. -/
def hexDigit (c : Char) : Option Nat :=
  if '0' ≤ c ∧ c ≤ '9' then some (c.toNat - '0'.toNat)
  else if 'a' ≤ c ∧ c ≤ 'f' then some (c.toNat - 'a'.toNat + 10)
  else if 'A' ≤ c ∧ c ≤ 'F' then some (c.toNat - 'A'.toNat + 10)
  else none

/-- Value of one decimal digit. -/
def decDigit (c : Char) : Option Nat :=
  if '0' ≤ c ∧ c ≤ '9' then some (c.toNat - '0'.toNat) else none

/-- Accumulate the value of a digit string; `none` on any invalid digit. -/
def digitsValAux (dig : Char → Option Nat) (base : Nat) : Str → Nat → Option Nat
  | [], acc => some acc
  | c :: cs, acc =>
    match dig c with
    | some d => digitsValAux dig base cs (acc * base + d)
    | none => none

/-- Value of a non-empty digit string; `none` when empty or invalid. -/
def digitsVal (dig : Char → Option Nat) (base : Nat) (s : Str) : Option Nat :=
  if s.isEmpty then none else digitsValAux dig base s 0

/-- Range check for the non-negative branch of Rust integer parsing. -/
def clampPos (maxPos : Nat) (v? : Option Nat) : Option Int :=
  v?.bind fun v => if v ≤ maxPos then some (v : Int) else none

/-- Range check for the negative branch of Rust integer parsing. -/
def clampNeg (maxNeg : Nat) (v? : Option Nat) : Option Int :=
  v?.bind fun v => if v ≤ maxNeg then some (-(v : Int)) else none

/-- Rust signed-integer parsing: optional sign, digit string, overflow check
(`maxPos` is the largest positive value, `maxNeg` the magnitude of the most
negative value). -/
def rustParseSigned (dig : Char → Option Nat) (base maxPos maxNeg : Nat) : Str → Option Int
  | [] => none
  | c :: r =>
    if c = '+' then clampPos maxPos (digitsVal dig base r)
    else if c = '-' then clampNeg maxNeg (digitsVal dig base r)
    else clampPos maxPos (digitsVal dig base (c :: r))

/-- `i64::from_str_radix(s, 16)`. -/
def fromStrRadix16 (s : Str) : Option Int :=
  rustParseSigned hexDigit 16 (2 ^ 63 - 1) (2 ^ 63) s

/-- `s.parse::<i64>()`. -/
def parseI64 (s : Str) : Option Int :=
  rustParseSigned decDigit 10 (2 ^ 63 - 1) (2 ^ 63) s

/-- `s.parse::<i32>()`. -/
def parseI32 (s : Str) : Option Int :=
  rustParseSigned decDigit 10 (2 ^ 31 - 1) (2 ^ 31) s

/-- ASCII decimal digit test (for the f64 grammar). -/
def isDecDigit (c : Char) : Bool := '0' ≤ c && c ≤ '9'

/-- Exponent part of the f64 grammar: empty, or `e`/`E`, optional sign, at
least one digit. -/
def expPart : Str → Bool
  | [] => true
  | c :: r =>
    (c == 'e' || c == 'E') &&
      (match r with
       | '+' :: d => !d.isEmpty && d.all isDecDigit
       | '-' :: d => !d.isEmpty && d.all isDecDigit
       | d => !d.isEmpty && d.all isDecDigit)

/-- Unsigned mantissa-with-exponent of the f64 grammar:
`digits [. digits] exp` or `. digits exp`, with at least one digit. -/
def isF64Body (s : Str) : Bool :=
  match s.dropWhile isDecDigit with
  | '.' :: r2 =>
    (!(s.takeWhile isDecDigit).isEmpty || !(r2.takeWhile isDecDigit).isEmpty) &&
      expPart (r2.dropWhile isDecDigit)
  | r1 => !(s.takeWhile isDecDigit).isEmpty && expPart r1

/-- Grammar accepted by `f64::from_str`: optional sign, then a number or one
of the case-insensitive words `inf`, `infinity`, `nan`. -/
def isF64Literal (s : Str) : Bool :=
  let body := match s with
    | '+' :: r => r
    | '-' :: r => r
    | r => r
  isF64Body body || body.map Char.toLower = "inf".data ||
    body.map Char.toLower = "infinity".data || body.map Char.toLower = "nan".data

/-- The parsed event; fields as in src/types.rs `Syscall` (the `duration`
field keeps the raw literal text, see the module comment). -/
structure Syscall where
  timestamp : Str
  syscall : Str
  args : Str
  return_value : Option Int
  error_code : Option Str
  error_message : Option Str
  duration : Option Str
  unfinished : Bool
  resumed : Bool
deriving DecidableEq, Repr

def unfinishedMarker : Str := "<unfinished ...>".data

def resumedMarker : Str := "resumed>".data

/-- Boolean guard as an `Option Unit`, to keep the parsers as bind chains. -/
def chk (b : Bool) : Option Unit := if b then some () else none

/-- Return-value token parsing shared by the regular and resumed paths
(src/parser.rs lines 61-69 and 180-188, textually identical there). -/
def parseReturnToken (s : Str) : Option Int :=
  if "0x".data.isPrefixOf s then fromStrRadix16 (s.drop 2)
  else if "-0x".data.isPrefixOf s then (fromStrRadix16 (s.drop 3)).map (fun v => -v)
  else parseI64 s

/-- Duration extraction from the text after `= ` (src/parser.rs lines 41-47):
`POpt.none` aborts the whole line (a `<` with no `>`), a reversed slice
panics (src/parser.rs line 43), otherwise the result is the optional
duration literal. -/
def parseDuration (ae : Str) : POpt (Option Str) :=
  match rfindChar '<' ae with
  | Option.none => POpt.some Option.none
  | Option.some ds =>
    qTry (rfindChar '>' ae) fun de =>
      pSlice (sliceS ae (ds + 1) de) fun dstr =>
        POpt.some (if isF64Literal dstr then Option.some dstr else Option.none)

/-- The return/error region: the text after `= ` with the trailing `<...>`
block removed and trimmed (src/parser.rs lines 50-54). -/
def beforeDuration (ae : Str) : Str :=
  match rfindChar '<' ae with
  | none => trimS ae
  | some pos => trimS (ae.take pos)

/-- Return value and error fields from the return/error region
(src/parser.rs lines 56-86, shared textually with lines 177-203); a message
slice whose last `)` precedes its first `(` panics (src/parser.rs line 79). -/
def parseRetErr (bd : Str) : POpt (Option Int × Option Str × Option Str) :=
  match (splitn2 ' ' bd).2 with
  | Option.none => POpt.some (parseReturnToken (splitn2 ' ' bd).1, none, none)
  | Option.some ep =>
    match findChar '(' ep with
    | Option.none => POpt.some (parseReturnToken (splitn2 ' ' bd).1, some ep, none)
    | Option.some pp =>
      qTry (rfindChar ')' ep) fun me =>
        pSlice (sliceS ep (pp + 1) me) fun msg =>
          POpt.some (parseReturnToken (splitn2 ' ' bd).1, some (trimS (ep.take pp)), some msg)

/-- Everything the regular and resumed paths do after `= `: duration, then
return value and error fields; panic and failure propagate. -/
def parseRetTail (ae : Str) : POpt (Option Int × Option Str × Option Str × Option Str) :=
  (parseDuration ae).bind fun dur =>
    (parseRetErr (beforeDuration ae)).bind fun t =>
      POpt.some (t.1, t.2.1, t.2.2, dur)

/-- Structural phase of `parse_regular` (src/parser.rs lines 4-32): timestamp,
call name, argument text and the text after `= `. -/
def regularSplit (line : Str) : Option (Str × Str × Str × Str) :=
  (splitOnce ' ' line).bind fun p =>
    (findChar '(' p.2).bind fun pp =>
      (findChar ')' (p.2.drop (pp + 1))).bind fun cp =>
        (stripPre "= ".data (trimStart ((p.2.drop (pp + 1)).drop (cp + 1)))).bind fun _ =>
          (stripPre "=".data (trimStart ((p.2.drop (pp + 1)).drop (cp + 1)))).bind fun s2 =>
            some (p.1, trimS (p.2.take pp), (p.2.drop (pp + 1)).take cp, trimStart s2)

/-- src/parser.rs `parse_regular` (the structural phase uses only one-ended
slices at positions returned by find, so it cannot panic; the tail can). -/
def parse_regular (line : Str) : POpt Syscall :=
  qTry (regularSplit line) fun q =>
    (parseRetTail q.2.2.2).bind fun t =>
      POpt.some { timestamp := q.1, syscall := q.2.1, args := q.2.2.1,
                  return_value := t.1, error_code := t.2.1, error_message := t.2.2.1,
                  duration := t.2.2.2, unfinished := false, resumed := false }

/-- src/parser.rs `parse_unfinished` (no two-ended slice on this path, so it
never panics). -/
def parse_unfinished (line : Str) : POpt Syscall :=
  qTry (chk (containsSub unfinishedMarker line)) fun _ =>
    qTry (splitOnce ' ' line) fun p =>
      qTry (findChar '(' p.2) fun pp =>
        qTry (findSub unfinishedMarker (p.2.drop (pp + 1))) fun up =>
          POpt.some { timestamp := p.1, syscall := trimS (p.2.take pp),
                      args := trimS ((p.2.drop (pp + 1)).take up),
                      return_value := none, error_code := none, error_message := none,
                      duration := none, unfinished := true, resumed := false }

/-- src/parser.rs `parse_resumed`; the name slice `&rest[rs+5..re]`
(src/parser.rs line 149) panics when the `<... ` marker starts fewer than 5
characters before ` resumed>`, which the model surfaces as `POpt.panic`. -/
def parse_resumed (line : Str) : POpt Syscall :=
  qTry (chk (containsSub resumedMarker line)) fun _ =>
    qTry (splitOnce ' ' line) fun p =>
      qTry (findSub "<... ".data p.2) fun rs =>
        qTry (findSub " resumed>".data p.2) fun re =>
          pSlice (sliceS p.2 (rs + 5) re) fun name =>
            qTry (findChar ')' (p.2.drop (re + 9))) fun cp =>
              qTry (findSub " = ".data (p.2.drop (re + 9))) fun ep =>
                (parseRetTail ((p.2.drop (re + 9)).drop (ep + 3))).bind fun t =>
                  POpt.some { timestamp := p.1, syscall := name,
                              args := (p.2.drop (re + 9)).take cp,
                              return_value := t.1, error_code := t.2.1,
                              error_message := t.2.2.1, duration := t.2.2.2,
                              unfinished := false, resumed := true }

/-- src/parser.rs `parse_line`: unfinished, then resumed, then regular; a
panic in an attempted branch aborts the whole call. -/
def parse_line (line : Str) : POpt Syscall :=
  match parse_unfinished line with
  | POpt.some s => POpt.some s
  | POpt.panic => POpt.panic
  | POpt.none =>
    match parse_resumed line with
    | POpt.some s => POpt.some s
    | POpt.panic => POpt.panic
    | POpt.none => parse_regular line

/-- Counter fields of src/processor.rs `ProcessStats` (the three `Duration`
accumulators are wall-clock measurements and are not modelled). -/
structure ProcessStats where
  total_lines : Nat
  parsed_lines : Nat
  failed_lines : Nat
deriving DecidableEq, Repr

/-- Field-wise sum of stats, as the `+=` merging in src/main.rs and the
`fetch_add` aggregation in src/parallel_processor.rs. -/
def statAdd (a b : ProcessStats) : ProcessStats :=
  ⟨a.total_lines + b.total_lines, a.parsed_lines + b.parsed_lines,
   a.failed_lines + b.failed_lines⟩

instance : Add ProcessStats := ⟨statAdd⟩

instance : Zero ProcessStats := ⟨⟨0, 0, 0⟩⟩

instance : AddCommMonoid ProcessStats where
  add_assoc a b c := by
    cases a; cases b; cases c
    show statAdd (statAdd _ _) _ = statAdd _ (statAdd _ _)
    simp [statAdd]; omega
  zero_add a := by
    cases a
    show statAdd ⟨0, 0, 0⟩ _ = _
    simp [statAdd]
  add_zero a := by
    cases a
    show statAdd _ ⟨0, 0, 0⟩ = _
    simp [statAdd]
  add_comm a b := by
    cases a; cases b
    show statAdd _ _ = statAdd _ _
    simp [statAdd]; omega
  nsmul := nsmulRec

/-- The per-line loop of src/processor.rs `process_file` (lines 58-73):
counts every line and collects the events of the lines that parse; `none`
models a line whose parse panics, which crashes the whole scan. -/
def scanLines : List Str → Option (ProcessStats × List Syscall)
  | [] => some (⟨0, 0, 0⟩, [])
  | l :: ls =>
    match parse_line l with
    | POpt.panic => none
    | POpt.some ev =>
      (scanLines ls).map fun r =>
        (⟨r.1.total_lines + 1, r.1.parsed_lines + 1, r.1.failed_lines⟩, ev :: r.2)
    | POpt.none =>
      (scanLines ls).map fun r =>
        (⟨r.1.total_lines + 1, r.1.parsed_lines, r.1.failed_lines + 1⟩, r.2)

/-- src/processor.rs `extract_pid`: text after the last `.` (the whole name
when there is no `.`), as `rsplit('.').next()`. -/
def afterLastDot (s : Str) : Str :=
  match rfindChar '.' s with
  | none => s
  | some i => s.drop (i + 1)

/-- src/processor.rs `extract_pid`. -/
def extract_pid (filename : Str) : Option Int := parseI32 (afterLastDot filename)

/-- The persisted pid: `extract_pid(filename).unwrap_or(0)`
(src/processor.rs lines 42 and 105). -/
def pidOf (filename : Str) : Int := (extract_pid filename).getD 0

/-- One row appended to the sink: trace file identifier, pid, event. -/
structure Row where
  source : Str
  pid : Int
  event : Syscall
deriving DecidableEq

/-- A named input file; `content = none` models a file that cannot be
opened or read. -/
structure FileEntry where
  name : Str
  content : Option (List Str)

/-- The file system the drivers run against. -/
abbrev FileSys := List FileEntry

/-- Opening and reading a file; `none` is the I/O failure the source
surfaces as an `Err` from `process_file`. -/
def readFile (fs : FileSys) (p : Str) : Option (List Str) :=
  match fs.find? (fun e => decide (e.name = p)) with
  | some e => e.content
  | none => none

/-- src/processor.rs `process_file` (and `process_file_with_appender`, which
appends the same rows one at a time instead of batching): stats of the scan
plus the rows appended to the sink.  `POpt.none` is the recoverable `Err` of
a file that cannot be opened; `POpt.panic` a line whose parse panicked,
which crashes the executing thread.  File paths are modelled as bare file
names. -/
def process_file (fs : FileSys) (p : Str) : POpt (ProcessStats × List Row) :=
  match readFile fs p with
  | Option.none => POpt.none
  | Option.some ls =>
    match scanLines ls with
    | Option.none => POpt.panic
    | Option.some r => POpt.some (r.1, r.2.map fun ev => ⟨p, pidOf p, ev⟩)

/-- The sequential loop of src/main.rs (lines 56-71): the `?` on
`process_file` propagates a file failure (with the failing file's identity)
and aborts the remaining files; a panic crashes the run (`none`). -/
def sequentialDriver (fs : FileSys) : List Str → Option (Except Str (ProcessStats × List Row))
  | [] => some (Except.ok (⟨0, 0, 0⟩, []))
  | p :: ps =>
    match process_file fs p with
    | POpt.panic => none
    | POpt.none => some (Except.error p)
    | POpt.some pr =>
      match sequentialDriver fs ps with
      | none => none
      | some (Except.error e) => some (Except.error e)
      | some (Except.ok pr') => some (Except.ok (statAdd pr.1 pr'.1, pr.2 ++ pr'.2))

/-- One worker of src/parallel_processor.rs over the files it claims: a file
whose `process_file` returns `Err` is reported and skipped, the worker
continues (lines 85-122); returns its stats contribution and the number of
rows it appended.  A panicking file kills the worker thread; its result is
then undefined (`none`) — the theorems below only describe panic-free
workers. -/
def workerRun (fs : FileSys) : List Str → Option (ProcessStats × Nat)
  | [] => some (⟨0, 0, 0⟩, 0)
  | p :: ps =>
    match process_file fs p with
    | POpt.panic => none
    | POpt.none => workerRun fs ps
    | POpt.some pr =>
      (workerRun fs ps).map fun r => (statAdd pr.1 r.1, pr.2.length + r.2)

/-- src/parallel_processor.rs `process_files_parallel` after all workers are
joined, over a given assignment of files to workers: the aggregate counters
and the total number of rows in the sink; undefined when a worker died. -/
def process_files_parallel (fs : FileSys) : List (List Str) → Option (ProcessStats × Nat)
  | [] => some (⟨0, 0, 0⟩, 0)
  | w :: ws =>
    match workerRun fs w, process_files_parallel fs ws with
    | some r, some acc => some (statAdd r.1 acc.1, r.2 + acc.2)
    | _, _ => none

/-- Stats contribution of one successfully processed file. -/
def fileStats (fs : FileSys) (p : Str) : Option ProcessStats :=
  match process_file fs p with
  | POpt.some pr => some pr.1
  | _ => none

/-- A file that can be opened and whose scan completes without a panic. -/
def fileOk (fs : FileSys) (p : Str) : Bool :=
  match process_file fs p with
  | POpt.some _ => true
  | _ => false

/-- The per-file stats contributions a list of claimed files generates (one
atomic `fetch_add` per successfully processed file). -/
def perFileContribs (fs : FileSys) (ps : List Str) : List ProcessStats :=
  ps.filterMap (fileStats fs)

/-- The rows of a successful sequential run (empty on an aborted run). -/
def seqRows (fs : FileSys) (paths : List Str) : List Row :=
  match sequentialDriver fs paths with
  | some (Except.ok pr) => pr.2
  | _ => []

deriving instance DecidableEq for Except

/-- A line containing the unfinished marker before the first parenthesis:
the unfinished parser rejects it but the regular parser accepts it. -/
def lineC1 : Str := "a <unfinished ...> b(x) = 1".data

/-- The event lineC1 parses to (through the regular path). -/
def evC1 : Syscall :=
  ⟨"a".data, "<unfinished ...> b".data, "x".data, some 1, none, none, none, false, false⟩

/-- A line containing `resumed>` with no `<... ` marker: the resumed parser
rejects it but the regular parser accepts it. -/
def lineC2 : Str := "a f(xresumed>) = 1".data

/-- The event lineC2 parses to (through the regular path). -/
def evC2 : Syscall :=
  ⟨"a".data, "f".data, "xresumed>".data, some 1, none, none, none, false, false⟩

/-- A complete line whose return region is `0 FOO`: return value 0 together
with a present error code. -/
def lineC6 : Str := "a f() = 0 FOO".data

/-- The event lineC6 parses to. -/
def evC6 : Syscall :=
  ⟨"a".data, "f".data, [], some 0, some "FOO".data, none, none, false, false⟩

/-- A minimal complete line that parses successfully. -/
def goodLine : Str := "a f() = 0".data

/-- The event goodLine parses to. -/
def evGood : Syscall := ⟨"a".data, "f".data, [], some 0, none, none, none, false, false⟩

/-- The structural split of goodLine. -/
def qGood : Str × Str × Str × Str := ("a".data, "f".data, [], "0".data)

/-- A file system with one unreadable and one readable file. -/
def fsMixed : FileSys := [⟨"bad".data, none⟩, ⟨"good".data, some [goodLine]⟩]

/-- A file system with a single readable file. -/
def fsGood1 : FileSys := [⟨"good".data, some [goodLine]⟩]

/-- Concrete unfinished line (from the source's unit tests). -/
def lineW1 : Str := "22:21:24.927885 wait4(1387721 <unfinished ...>) = ?".data

/-- Concrete resumed line. -/
def lineW2 : Str := "a <... poll resumed>) = 1".data

/-- Concrete error line with a parenthesized message. -/
def lineW4a : Str := "a f(x) = -1 ENOENT (No such file or directory)".data

/-- Concrete error line without a message. -/
def lineW4b : Str := "a f(x) = -1 ENOENT".data

/-- Concrete complete line with the non-numeric return token `?`. -/
def lineW10 : Str := "a f(x) = ?".data

/-- The structural split of lineW4a. -/
def qW4a : Str × Str × Str × Str :=
  ("a".data, "f".data, "x".data, "-1 ENOENT (No such file or directory)".data)

/-- The event lineW4a parses to. -/
def evW4a : Syscall :=
  ⟨"a".data, "f".data, "x".data, some (-1), some "ENOENT".data,
   some "No such file or directory".data, none, false, false⟩

/-- The structural split of lineW4b. -/
def qW4b : Str × Str × Str × Str := ("a".data, "f".data, "x".data, "-1 ENOENT".data)

/-- The event lineW4b parses to. -/
def evW4b : Syscall :=
  ⟨"a".data, "f".data, "x".data, some (-1), some "ENOENT".data, none, none, false, false⟩

/- ------------------------------------------------------------------ -/
/- Helper lemmas.                                                      -/
/- ------------------------------------------------------------------ -/

theorem statAdd_eq (a b : ProcessStats) : statAdd a b = a + b := rfl

theorem qTry_eq_some {α β : Type} {o : Option α} {f : α → POpt β} {b : β} :
    qTry o f = POpt.some b ↔ ∃ a, o = some a ∧ f a = POpt.some b := by
  cases o <;> simp [qTry]

theorem pSlice_eq_some {β : Type} {o : Option Str} {f : Str → POpt β} {b : β} :
    pSlice o f = POpt.some b ↔ ∃ a, o = some a ∧ f a = POpt.some b := by
  cases o <;> simp [pSlice]

theorem pbind_eq_some {α β : Type} {x : POpt α} {f : α → POpt β} {b : β} :
    x.bind f = POpt.some b ↔ ∃ a, x = POpt.some a ∧ f a = POpt.some b := by
  cases x <;> simp [POpt.bind]

theorem POpt.some_bind {α β : Type} (a : α) (f : α → POpt β) :
    (POpt.some a).bind f = f a := rfl

theorem qTry_some {α β : Type} (a : α) (f : α → POpt β) : qTry (some a) f = f a := rfl

theorem parse_unfinished_fields {line : Str} {ev : Syscall}
    (h : parse_unfinished line = POpt.some ev) :
    ev.return_value = none ∧ ev.error_code = none ∧ ev.error_message = none ∧
      ev.duration = none ∧ ev.unfinished = true ∧ ev.resumed = false := by
  unfold parse_unfinished at h
  rw [qTry_eq_some] at h
  obtain ⟨u, -, h⟩ := h
  rw [qTry_eq_some] at h
  obtain ⟨p, -, h⟩ := h
  rw [qTry_eq_some] at h
  obtain ⟨pp, -, h⟩ := h
  rw [qTry_eq_some] at h
  obtain ⟨up, -, h⟩ := h
  injection h with h
  subst h
  exact ⟨rfl, rfl, rfl, rfl, rfl, rfl⟩

theorem parse_resumed_fields {line : Str} {ev : Syscall}
    (h : parse_resumed line = POpt.some ev) :
    ev.unfinished = false ∧ ev.resumed = true := by
  unfold parse_resumed at h
  rw [qTry_eq_some] at h
  obtain ⟨u, -, h⟩ := h
  rw [qTry_eq_some] at h
  obtain ⟨p, -, h⟩ := h
  rw [qTry_eq_some] at h
  obtain ⟨rs, -, h⟩ := h
  rw [qTry_eq_some] at h
  obtain ⟨re, -, h⟩ := h
  rw [pSlice_eq_some] at h
  obtain ⟨name, -, h⟩ := h
  rw [qTry_eq_some] at h
  obtain ⟨cp, -, h⟩ := h
  rw [qTry_eq_some] at h
  obtain ⟨ep, -, h⟩ := h
  rw [pbind_eq_some] at h
  obtain ⟨t, -, h⟩ := h
  injection h with h
  subst h
  exact ⟨rfl, rfl⟩

theorem parse_regular_fields {line : Str} {ev : Syscall}
    (h : parse_regular line = POpt.some ev) :
    ev.unfinished = false ∧ ev.resumed = false := by
  unfold parse_regular at h
  rw [qTry_eq_some] at h
  obtain ⟨q, -, h⟩ := h
  rw [pbind_eq_some] at h
  obtain ⟨t, -, h⟩ := h
  injection h with h
  subst h
  exact ⟨rfl, rfl⟩

theorem parse_line_some {line : Str} {ev : Syscall} (h : parse_line line = POpt.some ev) :
    parse_unfinished line = POpt.some ev ∨ parse_resumed line = POpt.some ev ∨
      parse_regular line = POpt.some ev := by
  unfold parse_line at h
  split at h
  · rename_i s hs
    injection h with h
    subst h
    exact Or.inl hs
  · exact POpt.noConfusion h
  · split at h
    · rename_i s hs
      injection h with h
      subst h
      exact Or.inr (Or.inl hs)
    · exact POpt.noConfusion h
    · exact Or.inr (Or.inr h)

theorem parse_regular_decomp {line : Str} {ev : Syscall} (h : parse_regular line = POpt.some ev) :
    ∃ (q : Str × Str × Str × Str) (t : Option Int × Option Str × Option Str × Option Str),
      regularSplit line = some q ∧ parseDuration q.2.2.2 = POpt.some t.2.2.2 ∧
      parseRetErr (beforeDuration q.2.2.2) = POpt.some (t.1, t.2.1, t.2.2.1) ∧
      ev = ⟨q.1, q.2.1, q.2.2.1, t.1, t.2.1, t.2.2.1, t.2.2.2, false, false⟩ := by
  unfold parse_regular at h
  rw [qTry_eq_some] at h
  obtain ⟨q, hq, h⟩ := h
  rw [pbind_eq_some] at h
  obtain ⟨t, ht, h⟩ := h
  injection h with h
  unfold parseRetTail at ht
  rw [pbind_eq_some] at ht
  obtain ⟨dur, hdur, ht⟩ := ht
  rw [pbind_eq_some] at ht
  obtain ⟨r, hre, ht⟩ := ht
  injection ht with ht
  subst ht
  exact ⟨q, (r.1, r.2.1, r.2.2, dur), hq, hdur, hre, h.symm⟩

theorem parse_resumed_decomp {line : Str} {ev : Syscall}
    (h : parse_resumed line = POpt.some ev) :
    ∃ bd : Str,
      parseRetErr bd = POpt.some (ev.return_value, ev.error_code, ev.error_message) := by
  unfold parse_resumed at h
  rw [qTry_eq_some] at h
  obtain ⟨u, -, h⟩ := h
  rw [qTry_eq_some] at h
  obtain ⟨p, -, h⟩ := h
  rw [qTry_eq_some] at h
  obtain ⟨rs, -, h⟩ := h
  rw [qTry_eq_some] at h
  obtain ⟨re, -, h⟩ := h
  rw [pSlice_eq_some] at h
  obtain ⟨name, -, h⟩ := h
  rw [qTry_eq_some] at h
  obtain ⟨cp, -, h⟩ := h
  rw [qTry_eq_some] at h
  obtain ⟨ep, -, h⟩ := h
  rw [pbind_eq_some] at h
  obtain ⟨t, ht, h⟩ := h
  injection h with h
  subst h
  unfold parseRetTail at ht
  rw [pbind_eq_some] at ht
  obtain ⟨dur, -, ht⟩ := ht
  rw [pbind_eq_some] at ht
  obtain ⟨r, hre, ht⟩ := ht
  injection ht with ht
  subst ht
  exact ⟨_, hre⟩

theorem parseRetErr_rv {bd : Str} {r : Option Int × Option Str × Option Str}
    (h : parseRetErr bd = POpt.some r) :
    r.1 = parseReturnToken (splitn2 ' ' bd).1 := by
  unfold parseRetErr at h
  split at h
  · injection h with h
    subst h
    rfl
  · split at h
    · injection h with h
      subst h
      rfl
    · rw [qTry_eq_some] at h
      obtain ⟨me, -, h⟩ := h
      rw [pSlice_eq_some] at h
      obtain ⟨msg, -, h⟩ := h
      injection h with h
      subst h
      rfl

theorem parseRetErr_cases {bd : Str} {r : Option Int × Option Str × Option Str}
    (h : parseRetErr bd = POpt.some r) :
    (findChar ' ' bd = none → r.2.1 = none ∧ r.2.2 = none) ∧
    (r.2.2.isSome = true → r.2.1.isSome = true) ∧
    (findChar ' ' bd ≠ none → r.2.1.isSome = true) := by
  have hsplit : findChar ' ' bd = none → (splitn2 ' ' bd).2 = none := by
    intro hf
    simp [splitn2, splitOnce, hf]
  have hsplit2 : findChar ' ' bd ≠ none → (splitn2 ' ' bd).2 ≠ none := by
    intro hf
    cases hfc : findChar ' ' bd with
    | none => exact absurd hfc hf
    | some i => simp [splitn2, splitOnce, hfc]
  unfold parseRetErr at h
  split at h
  · rename_i hnone
    injection h with h
    subst h
    refine ⟨fun _ => ⟨rfl, rfl⟩, fun hmsg => by simp at hmsg, fun hne => absurd hnone (hsplit2 hne)⟩
  · rename_i ep hsome
    have hfc : findChar ' ' bd ≠ none := by
      intro hf
      rw [hsplit hf] at hsome
      exact Option.noConfusion hsome
    split at h
    · injection h with h
      subst h
      exact ⟨fun hf => absurd hf hfc, fun hmsg => by simp at hmsg, fun _ => rfl⟩
    · rw [qTry_eq_some] at h
      obtain ⟨me, -, h⟩ := h
      rw [pSlice_eq_some] at h
      obtain ⟨msg, -, h⟩ := h
      injection h with h
      subst h
      exact ⟨fun hf => absurd hf hfc, fun _ => rfl, fun _ => rfl⟩

theorem findSub_bound {pat : Str} : ∀ {s : Str} {i : Nat},
    findSub pat s = some i → i + pat.length ≤ s.length := by
  intro s
  induction s with
  | nil =>
    intro i h
    unfold findSub at h
    split at h
    · rename_i hemp
      injection h with h
      subst h
      simp_all [List.isEmpty_iff]
    · exact Option.noConfusion h
  | cons x xs ih =>
    intro i h
    unfold findSub at h
    split at h
    · rename_i hpre
      injection h with h
      subst h
      have hlen : pat.length ≤ (x :: xs).length :=
        (List.isPrefixOf_iff_prefix.mp hpre).length_le
      omega
    · cases hfs : findSub pat xs with
      | none =>
        rw [hfs] at h
        exact Option.noConfusion h
      | some j =>
        rw [hfs] at h
        simp only [Option.map_some'] at h
        injection h with h
        have := ih hfs
        simp only [List.length_cons]
        omega

theorem digitsValAux_all {dig : Char → Option Nat} {base : Nat} :
    ∀ {s : Str} {acc v : Nat}, digitsValAux dig base s acc = some v →
      ∀ c ∈ s, (dig c).isSome = true := by
  intro s
  induction s with
  | nil => intro acc v _ c hc; exact absurd hc (List.not_mem_nil c)
  | cons x xs ih =>
    intro acc v h c hc
    unfold digitsValAux at h
    cases hd : dig x with
    | none => rw [hd] at h; exact Option.noConfusion h
    | some d =>
      rw [hd] at h
      rcases List.mem_cons.mp hc with hcx | hcs
      · rw [hcx, hd]; rfl
      · exact ih h c hcs

theorem rustParseSigned_digits {dig : Char → Option Nat} {base maxPos maxNeg : Nat} {s : Str}
    {v : Nat} (hplus : dig '+' = none) (hminus : dig '-' = none)
    (h : digitsVal dig base s = some v) (hv : v ≤ maxPos) :
    rustParseSigned dig base maxPos maxNeg s = some (v : Int) := by
  cases s with
  | nil => simp [digitsVal] at h
  | cons c r =>
    have haux : digitsValAux dig base (c :: r) 0 = some v := by
      simpa [digitsVal] using h
    have hcsome : (dig c).isSome = true :=
      digitsValAux_all haux c (List.mem_cons_self c r)
    have hcp : ¬ c = '+' := by
      intro hce
      rw [hce, hplus] at hcsome
      exact Bool.noConfusion hcsome
    have hcm : ¬ c = '-' := by
      intro hce
      rw [hce, hminus] at hcsome
      exact Bool.noConfusion hcsome
    show (if c = '+' then clampPos maxPos (digitsVal dig base r)
      else if c = '-' then clampNeg maxNeg (digitsVal dig base r)
      else clampPos maxPos (digitsVal dig base (c :: r))) = some (v : Int)
    rw [if_neg hcp, if_neg hcm, h]
    simp [clampPos, hv]

theorem fromStrRadix16_digits {ds : Str} {v : Nat}
    (h : digitsVal hexDigit 16 ds = some v) (hv : v ≤ 2 ^ 63 - 1) :
    fromStrRadix16 ds = some (v : Int) :=
  rustParseSigned_digits (by decide) (by decide) h hv

theorem parseI32_digits {ds : Str} {v : Nat}
    (h : digitsVal decDigit 10 ds = some v) (hv : v ≤ 2 ^ 31 - 1) :
    parseI32 ds = some (v : Int) :=
  rustParseSigned_digits (by decide) (by decide) h hv

theorem rfindChar_of_not_mem {c : Char} {l : Str} (h : c ∉ l) : rfindChar c l = none := by
  induction l with
  | nil => rfl
  | cons x xs ih =>
    have hx : ¬ x = c := by
      intro he
      exact h (by rw [← he]; exact List.mem_cons_self x xs)
    simp [rfindChar, ih (fun hm => h (List.mem_cons_of_mem x hm)), hx]

theorem rfindChar_append_cons {c : Char} (l1 : Str) {l2 : Str} (h : c ∉ l2) :
    rfindChar c (l1 ++ c :: l2) = some l1.length := by
  induction l1 with
  | nil => simp [rfindChar, rfindChar_of_not_mem h]
  | cons x xs ih => simp [rfindChar, ih]

theorem drop_append_cons {α : Type} (l1 : List α) (x : α) (l2 : List α) :
    (l1 ++ x :: l2).drop (l1.length + 1) = l2 := by
  induction l1 with
  | nil => rfl
  | cons y ys ih => simp only [List.cons_append, List.length_cons, List.drop_succ_cons, ih]

theorem scanLines_len : ∀ {ls : List Str} {r : ProcessStats × List Syscall},
    scanLines ls = some r → r.2.length = r.1.parsed_lines := by
  intro ls
  induction ls with
  | nil =>
    intro r h
    injection h with h
    subst h
    rfl
  | cons l ls ih =>
    intro r h
    unfold scanLines at h
    split at h
    · exact Option.noConfusion h
    · rw [Option.map_eq_some'] at h
      obtain ⟨a, ha, h⟩ := h
      subst h
      have := ih ha
      simp [this]
    · rw [Option.map_eq_some'] at h
      obtain ⟨a, ha, h⟩ := h
      subst h
      have := ih ha
      simp [this]

theorem process_file_rows {fs : FileSys} {p : Str} {pr : ProcessStats × List Row}
    (h : process_file fs p = POpt.some pr) : pr.2.length = pr.1.parsed_lines := by
  unfold process_file at h
  split at h
  · exact POpt.noConfusion h
  · split at h
    · exact POpt.noConfusion h
    · rename_i r hr
      injection h with h
      subst h
      simpa using scanLines_len hr

theorem fileOk_some {fs : FileSys} {p : Str} (h : fileOk fs p = true) :
    ∃ pr, process_file fs p = POpt.some pr := by
  unfold fileOk at h
  split at h
  · rename_i pr hpr
    exact ⟨pr, hpr⟩
  · exact Bool.noConfusion h

theorem perFileContribs_append (fs : FileSys) (a b : List Str) :
    perFileContribs fs (a ++ b) = perFileContribs fs a ++ perFileContribs fs b :=
  List.filterMap_append a b (fileStats fs)

theorem workerRun_eq (fs : FileSys) (w : List Str)
    (hok : ∀ p ∈ w, fileOk fs p = true) :
    workerRun fs w = some ((perFileContribs fs w).sum,
      ((perFileContribs fs w).map ProcessStats.parsed_lines).sum) := by
  induction w with
  | nil => rfl
  | cons p ps ih =>
    obtain ⟨pr, hpf⟩ := fileOk_some (hok p (List.mem_cons_self p ps))
    have hfile : fileStats fs p = some pr.1 := by simp [fileStats, hpf]
    have ihh := ih (fun q hq => hok q (List.mem_cons_of_mem _ hq))
    have hlen : pr.2.length = pr.1.parsed_lines := process_file_rows hpf
    simp [workerRun, hpf, ihh, perFileContribs, List.filterMap_cons_some hfile, hlen,
      statAdd_eq]

theorem parallel_eq (fs : FileSys) (schedule : List (List Str))
    (hok : ∀ p ∈ schedule.flatten, fileOk fs p = true) :
    process_files_parallel fs schedule =
      some ((perFileContribs fs schedule.flatten).sum,
        ((perFileContribs fs schedule.flatten).map ProcessStats.parsed_lines).sum) := by
  induction schedule with
  | nil => rfl
  | cons w ws ih =>
    have hw : ∀ p ∈ w, fileOk fs p = true := fun p hp =>
      hok p (by rw [List.flatten_cons]; exact List.mem_append_left _ hp)
    have hws : ∀ p ∈ ws.flatten, fileOk fs p = true := fun p hp =>
      hok p (by rw [List.flatten_cons]; exact List.mem_append_right _ hp)
    have ihh := ih hws
    simp [process_files_parallel, workerRun_eq fs w hw, ihh, List.flatten_cons,
      perFileContribs_append, List.sum_append, List.map_append, statAdd_eq]

theorem seq_ok (fs : FileSys) (paths : List Str)
    (h : ∀ p ∈ paths, fileOk fs p = true) :
    sequentialDriver fs paths =
        some (Except.ok ((perFileContribs fs paths).sum, seqRows fs paths)) ∧
      (seqRows fs paths).length =
        ((perFileContribs fs paths).map ProcessStats.parsed_lines).sum := by
  induction paths with
  | nil => exact ⟨rfl, rfl⟩
  | cons p ps ih =>
    obtain ⟨pr, hpf⟩ := fileOk_some (h p (List.mem_cons_self p ps))
    obtain ⟨hseq, hlen⟩ := ih (fun q hq => h q (List.mem_cons_of_mem _ hq))
    have hfile : fileStats fs p = some pr.1 := by simp [fileStats, hpf]
    have hcontr : perFileContribs fs (p :: ps) = pr.1 :: perFileContribs fs ps :=
      List.filterMap_cons_some hfile
    have hplen : pr.2.length = pr.1.parsed_lines := process_file_rows hpf
    have hstep : sequentialDriver fs (p :: ps) =
        some (Except.ok (statAdd pr.1 (perFileContribs fs ps).sum, pr.2 ++ seqRows fs ps)) := by
      simp only [sequentialDriver, hpf, hseq]
    have hrows : seqRows fs (p :: ps) = pr.2 ++ seqRows fs ps := by
      simp only [seqRows, hstep]
    constructor
    · rw [hstep, hrows, hcontr, List.sum_cons, statAdd_eq]
    · rw [hrows, hcontr]
      simp [hlen, hplen]

/- ------------------------------------------------------------------ -/
/- Claim theorems.                                                     -/
/- ------------------------------------------------------------------ -/

/-- Claim C1, counterexample: lineC1 contains the marker `<unfinished ...>`
and parse_line returns an Event for it, but that Event has
unfinished = false (the marker sits before the first parenthesis, so the
unfinished parser rejects the line and the regular parser accepts it). -/
theorem c1_counterexample :
    containsSub unfinishedMarker lineC1 = true ∧
      parse_line lineC1 = POpt.some evC1 ∧ evC1.unfinished = false := by decide

/-- Claim C1, amended: for a line containing `<unfinished ...>` in which the
marker occurs after the first `(` of the text following the timestamp (so the
unfinished parser matches), parse_line returns the Event with
return_value = none, duration = none, unfinished = true, resumed = false, and
raw arguments the trimmed text strictly between that `(` and the marker. -/
theorem c1_unfinished_amended (line ts rest : Str) (pp up : Nat)
    (hc : containsSub unfinishedMarker line = true)
    (hs : splitOnce ' ' line = some (ts, rest))
    (hp : findChar '(' rest = some pp)
    (hu : findSub unfinishedMarker (rest.drop (pp + 1)) = some up) :
    parse_line line = POpt.some ⟨ts, trimS (rest.take pp), trimS ((rest.drop (pp + 1)).take up),
      none, none, none, none, true, false⟩ := by
  have he : parse_unfinished line = POpt.some ⟨ts, trimS (rest.take pp),
      trimS ((rest.drop (pp + 1)).take up), none, none, none, none, true, false⟩ := by
    simp [parse_unfinished, chk, qTry, hc, hs, hp, hu]
  simp [parse_line, he]

/-- Claim C1, witness: the amended theorem applied to the concrete
unfinished line of the source's tests. -/
theorem c1_unfinished_amended_witness :
    parse_line lineW1 = POpt.some ⟨"22:21:24.927885".data,
      trimS ("wait4(1387721 <unfinished ...>) = ?".data.take 5),
      trimS (("wait4(1387721 <unfinished ...>) = ?".data.drop 6).take 8),
      none, none, none, none, true, false⟩ :=
  c1_unfinished_amended lineW1 "22:21:24.927885".data
    "wait4(1387721 <unfinished ...>) = ?".data 5 8
    (by decide) (by decide) (by decide) (by decide)

/-- Claim C2, counterexample: lineC2 contains `resumed>` and parse_line
returns an Event for it, but that Event has resumed = false (no `<... `
marker, so the resumed parser rejects the line and the regular parser
accepts it). -/
theorem c2_counterexample :
    containsSub resumedMarker lineC2 = true ∧
      parse_line lineC2 = POpt.some evC2 ∧ evC2.resumed = false := by decide

/-- Claim C2, amended: when the unfinished parser rejects the line, the
resumed parser matches (the line contains `resumed>`, a space, and the
post-timestamp text contains `<... ` and ` resumed>` with a well-formed
tail), and the name slice is well-formed (`<... ` starts at least 5
characters before ` resumed>`; otherwise the source panics on the reversed
slice at src/parser.rs line 149), parse_line returns the Event with
resumed = true, unfinished = false, and call name the text strictly between
`<... ` and ` resumed>`. -/
theorem c2_resumed_amended (line ts rest : Str) (rs re cp ep : Nat)
    (rv : Option Int) (ec em dur : Option Str)
    (h0 : parse_unfinished line = POpt.none)
    (hc : containsSub resumedMarker line = true)
    (hs : splitOnce ' ' line = some (ts, rest))
    (h1 : findSub "<... ".data rest = some rs)
    (h2 : findSub " resumed>".data rest = some re)
    (hok : rs + 5 ≤ re)
    (h3 : findChar ')' (rest.drop (re + 9)) = some cp)
    (h4 : findSub " = ".data (rest.drop (re + 9)) = some ep)
    (h5 : parseRetTail ((rest.drop (re + 9)).drop (ep + 3)) = POpt.some (rv, ec, em, dur)) :
    parse_line line = POpt.some ⟨ts, (rest.take re).drop (rs + 5),
      (rest.drop (re + 9)).take cp, rv, ec, em, dur, false, true⟩ := by
  have hre_len : re ≤ rest.length := by
    have hb := findSub_bound h2
    have h9 : (" resumed>".data).length = 9 := by decide
    rw [h9] at hb
    omega
  have hslice : sliceS rest (rs + 5) re = some ((rest.take re).drop (rs + 5)) := by
    simp [sliceS, hok, hre_len]
  have h5' : parseRetTail (rest.drop (re + 9 + (ep + 3))) = POpt.some (rv, ec, em, dur) := by
    rw [← List.drop_drop]
    exact h5
  have he : parse_resumed line = POpt.some ⟨ts, (rest.take re).drop (rs + 5),
      (rest.drop (re + 9)).take cp, rv, ec, em, dur, false, true⟩ := by
    simp [parse_resumed, chk, qTry, pSlice, POpt.some_bind, hc, hs, h1, h2, hslice, h3, h4, h5']
  simp [parse_line, h0, he]

/-- Claim C2, witness: the amended theorem applied to a concrete resumed
line; the extracted call name is `poll`. -/
theorem c2_resumed_amended_witness :
    parse_line lineW2 = POpt.some ⟨"a".data,
      ("<... poll resumed>) = 1".data.take 9).drop 5,
      ("<... poll resumed>) = 1".data.drop 18).take 0,
      some 1, none, none, none, false, true⟩ :=
  c2_resumed_amended lineW2 "a".data "<... poll resumed>) = 1".data 0 9 0 1
    (some 1) none none none (by decide) (by decide) (by decide) (by decide) (by decide)
    (by decide) (by decide) (by decide) (by decide)

/-- Claim C3, counterexample: the hexadecimal token `0x55edad95f000` does
not parse to 5694004871168 (its value is 94479307894784). -/
theorem c3_counterexample :
    parseReturnToken "0x55edad95f000".data ≠ some 5694004871168 := by decide

/-- Claim C3, amended: `0x55edad95f000` parses to the exact positive value
94479307894784 and `-0x10` to -16; in general, for a hex digit string of
value below 2^63, a `0x` prefix yields the positive magnitude and `-0x` its
negation (larger magnitudes make `from_str_radix` overflow and yield no
value rather than truncating). -/
theorem c3_hex_amended (ds : Str) (v : Nat)
    (h : digitsVal hexDigit 16 ds = some v) (hv : v ≤ 2 ^ 63 - 1) :
    parseReturnToken ('0' :: 'x' :: ds) = some (v : Int) ∧
      parseReturnToken ('-' :: '0' :: 'x' :: ds) = some (-(v : Int)) ∧
      parseReturnToken "0x55edad95f000".data = some 94479307894784 ∧
      parseReturnToken "-0x10".data = some (-16) := by
  refine ⟨?_, ?_, by decide, by decide⟩
  · have hpre : ("0x".data.isPrefixOf ('0' :: 'x' :: ds)) = true := by
      simp [List.isPrefixOf]
    unfold parseReturnToken
    rw [if_pos hpre]
    exact fromStrRadix16_digits h hv
  · have hpre1 : ("0x".data.isPrefixOf ('-' :: '0' :: 'x' :: ds)) = false := by
      simp [List.isPrefixOf]
    have hpre2 : ("-0x".data.isPrefixOf ('-' :: '0' :: 'x' :: ds)) = true := by
      simp [List.isPrefixOf]
    unfold parseReturnToken
    rw [if_neg (by rw [hpre1]; exact Bool.false_ne_true), if_pos hpre2,
      show ('-' :: '0' :: 'x' :: ds).drop 3 = ds from rfl, fromStrRadix16_digits h hv]
    rfl

/-- Claim C3, witness: the amended theorem at the digit string `10`. -/
theorem c3_hex_amended_witness :
    parseReturnToken ('0' :: 'x' :: "10".data) = some ((16 : Nat) : Int) ∧
      parseReturnToken ('-' :: '0' :: 'x' :: "10".data) = some (-((16 : Nat) : Int)) ∧
      parseReturnToken "0x55edad95f000".data = some 94479307894784 ∧
      parseReturnToken "-0x10".data = some (-16) :=
  c3_hex_amended "10".data 16 (by decide) (by decide)

/-- Claim C4: a complete-format line whose return/error region is
`-1 ENOENT (No such file or directory)` parses to return_value = -1,
error_code `ENOENT`, error_message `No such file or directory`; with region
`-1 ENOENT` the message is absent. -/
theorem c4_error_region (line : Str) (q : Str × Str × Str × Str) (ev : Syscall)
    (hq : regularSplit line = some q) (h : parse_regular line = POpt.some ev) :
    (beforeDuration q.2.2.2 = "-1 ENOENT (No such file or directory)".data →
      ev.return_value = some (-1) ∧ ev.error_code = some "ENOENT".data ∧
      ev.error_message = some "No such file or directory".data) ∧
    (beforeDuration q.2.2.2 = "-1 ENOENT".data →
      ev.return_value = some (-1) ∧ ev.error_code = some "ENOENT".data ∧
      ev.error_message = none) := by
  obtain ⟨q', t, hq', hdur, hre, hev⟩ := parse_regular_decomp h
  have hqq : q' = q := by
    rw [hq'] at hq
    exact Option.some.inj hq
  subst hqq
  subst hev
  constructor
  · intro hbd
    rw [hbd] at hre
    have hconc : parseRetErr "-1 ENOENT (No such file or directory)".data =
        POpt.some (some (-1), some "ENOENT".data, some "No such file or directory".data) := by
      decide
    have h0 := hconc.symm.trans hre
    injection h0 with hinj
    exact ⟨(congrArg Prod.fst hinj).symm, (congrArg (fun x => x.2.1) hinj).symm,
      (congrArg (fun x => x.2.2) hinj).symm⟩
  · intro hbd
    rw [hbd] at hre
    have hconc : parseRetErr "-1 ENOENT".data =
        POpt.some (some (-1), some "ENOENT".data, none) := by decide
    have h0 := hconc.symm.trans hre
    injection h0 with hinj
    exact ⟨(congrArg Prod.fst hinj).symm, (congrArg (fun x => x.2.1) hinj).symm,
      (congrArg (fun x => x.2.2) hinj).symm⟩

/-- Claim C4, witness: both regions exercised on concrete lines. -/
theorem c4_error_region_witness :
    (evW4a.return_value = some (-1) ∧ evW4a.error_code = some "ENOENT".data ∧
      evW4a.error_message = some "No such file or directory".data) ∧
    (evW4b.return_value = some (-1) ∧ evW4b.error_code = some "ENOENT".data ∧
      evW4b.error_message = none) :=
  ⟨(c4_error_region lineW4a qW4a evW4a (by decide) (by decide)).1 (by decide),
   (c4_error_region lineW4b qW4b evW4b (by decide) (by decide)).2 (by decide)⟩

/-- Claim C5: every Event parse_line produces has unfinished and resumed not
both true, and an Event from the regular path has both false. -/
theorem c5_flags_invariant (line : Str) (ev : Syscall) :
    (parse_line line = POpt.some ev → ¬(ev.unfinished = true ∧ ev.resumed = true)) ∧
    (parse_regular line = POpt.some ev → ev.unfinished = false ∧ ev.resumed = false) := by
  constructor
  · intro h hcon
    rcases parse_line_some h with hu | hr | hg
    · have hflags := parse_unfinished_fields hu
      rw [hflags.2.2.2.2.2] at hcon
      exact Bool.noConfusion hcon.2
    · have hflags := parse_resumed_fields hr
      rw [hflags.1] at hcon
      exact Bool.noConfusion hcon.1
    · have hflags := parse_regular_fields hg
      rw [hflags.1] at hcon
      exact Bool.noConfusion hcon.1
  · exact parse_regular_fields

/-- Claim C5, witness: instantiated on a concrete regular line. -/
theorem c5_flags_invariant_witness :
    ¬(evGood.unfinished = true ∧ evGood.resumed = true) ∧
      (evGood.unfinished = false ∧ evGood.resumed = false) :=
  ⟨(c5_flags_invariant goodLine evGood).1 (by decide),
   (c5_flags_invariant goodLine evGood).2 (by decide)⟩

/-- Claim C6, counterexample: a parsed Event with return value 0 (not an
error return) that nevertheless carries error_code `FOO`. -/
theorem c6_counterexample :
    parse_line lineC6 = POpt.some evC6 ∧ evC6.return_value ≠ some (-1) ∧
      evC6.error_code ≠ none := by decide

/-- Claim C6, amended: for every Event the parser produces (any of the three
paths) the error fields depend only on the presence of a second
whitespace-delimited token in the return/error region the parser derived for
that line, never on the return value: the event's return and error fields
come from parseRetErr on some region bd, with no second token in bd both
error fields are None, an error message is only present together with an
error code, and a second token always produces an error code whatever the
return value is (an unfinished event's fields agree with the empty region). -/
theorem c6_error_presence_amended (line : Str) (ev : Syscall)
    (h : parse_line line = POpt.some ev) :
    (ev.error_message.isSome = true → ev.error_code.isSome = true) ∧
    ∃ bd : Str,
      parseRetErr bd = POpt.some (ev.return_value, ev.error_code, ev.error_message) ∧
      (findChar ' ' bd = none → ev.error_code = none ∧ ev.error_message = none) ∧
      (findChar ' ' bd ≠ none → ev.error_code.isSome = true) := by
  have key : ∃ bd : Str,
      parseRetErr bd = POpt.some (ev.return_value, ev.error_code, ev.error_message) := by
    rcases parse_line_some h with hu | hr | hg
    · obtain ⟨hrv, hec, hem, -, -, -⟩ := parse_unfinished_fields hu
      refine ⟨[], ?_⟩
      rw [hrv, hec, hem]
      decide
    · exact parse_resumed_decomp hr
    · obtain ⟨q, t, -, -, hre, hev⟩ := parse_regular_decomp hg
      subst hev
      exact ⟨_, hre⟩
  obtain ⟨bd, hbd⟩ := key
  have hc := parseRetErr_cases hbd
  exact ⟨hc.2.1, bd, hbd, fun hsp => hc.1 hsp, hc.2.2⟩

/-- Claim C6, witness: on a concrete error line the parsed event's message
comes with an error code. -/
theorem c6_error_presence_amended_witness : evW4a.error_code.isSome = true :=
  (c6_error_presence_amended lineW4a evW4a (by decide)).1 (by decide)

/-- Claim C7, counterexample: with input files [bad, good] where bad cannot
be read, the sequential driver aborts with an error and never processes
good, although good is processable on its own. -/
theorem c7_counterexample :
    sequentialDriver fsMixed ["bad".data, "good".data] = some (Except.error "bad".data) ∧
      fileOk fsMixed "good".data = true := by decide

/-- Claim C7, amended: a file-level I/O failure is isolated in the parallel
pipeline (the worker skips the failing file and its run over the remaining
files is unchanged), while the sequential driver propagates the failure and
stops without reaching the files after it — provided the earlier files
themselves are readable and scan without a panic (a panicking line in an
earlier file crashes the run before the failing file is reached). -/
theorem c7_isolation_amended (fs : FileSys) (pre post : List Str) (p : Str)
    (hbad : readFile fs p = none) :
    workerRun fs (pre ++ p :: post) = workerRun fs (pre ++ post) ∧
    ((∀ q ∈ pre, fileOk fs q = true) →
      sequentialDriver fs (pre ++ p :: post) = some (Except.error p)) := by
  have hpf : process_file fs p = POpt.none := by simp [process_file, hbad]
  constructor
  · induction pre with
    | nil => simp [workerRun, hpf]
    | cons x xs ih => simp [workerRun, ih]
  · induction pre with
    | nil =>
      intro _
      simp [sequentialDriver, hpf]
    | cons x xs ih =>
      intro hpre
      obtain ⟨pr, hpfx⟩ := fileOk_some (hpre x (List.mem_cons_self x xs))
      have hrec := ih (fun q hq => hpre q (List.mem_cons_of_mem _ hq))
      simp [sequentialDriver, hpfx, hrec]

/-- Claim C7, witness: over fsMixed the worker result ignores the bad file
while the sequential driver stops at it. -/
theorem c7_isolation_amended_witness :
    workerRun fsMixed ["bad".data, "good".data] = workerRun fsMixed ["good".data] ∧
      sequentialDriver fsMixed ["bad".data, "good".data] = some (Except.error "bad".data) :=
  ⟨(c7_isolation_amended fsMixed [] ["good".data] "bad".data (by decide)).1,
   (c7_isolation_amended fsMixed [] ["good".data] "bad".data (by decide)).2 (by decide)⟩

/-- Claim C8, counterexample: `trace12345` ends in the digit run 12345 but
has no `.` separator, so extract_pid fails and the persisted pid is the
sentinel 0, not 12345. -/
theorem c8_counterexample :
    pidOf "trace12345".data = 0 ∧ pidOf "trace12345".data ≠ 12345 := by decide

/-- Claim C8, amended: the pid is the value of the text after the last `.`
of the file name when that text is a decimal digit string within i32 range,
and the sentinel 0 whenever extract_pid fails (for instance digits not
preceded by a `.`, or a non-numeric tail). -/
theorem c8_pid_amended (pre ds : Str) (v : Nat)
    (hds : digitsVal decDigit 10 ds = some v) (hv : v ≤ 2 ^ 31 - 1) :
    extract_pid (pre ++ '.' :: ds) = some (v : Int) ∧
      pidOf (pre ++ '.' :: ds) = (v : Int) ∧
      (∀ name, extract_pid name = none → pidOf name = 0) := by
  have hnd : '.' ∉ ds := by
    intro hm
    have haux : digitsValAux decDigit 10 ds 0 = some v := by
      cases ds with
      | nil => simp [digitsVal] at hds
      | cons c r => simpa [digitsVal] using hds
    have hall := digitsValAux_all haux '.' hm
    simp [decDigit] at hall
  have h1 : afterLastDot (pre ++ '.' :: ds) = ds := by
    unfold afterLastDot
    rw [rfindChar_append_cons pre hnd]
    exact drop_append_cons pre '.' ds
  have hpid : extract_pid (pre ++ '.' :: ds) = some (v : Int) := by
    unfold extract_pid
    rw [h1]
    exact parseI32_digits hds hv
  refine ⟨hpid, ?_, ?_⟩
  · simp [pidOf, hpid]
  · intro name hn
    simp [pidOf, hn]

/-- Claim C8, witness: `trace.12345` yields pid 12345, and a name for which
extraction fails yields 0. -/
theorem c8_pid_amended_witness :
    extract_pid ("trace".data ++ '.' :: "12345".data) = some ((12345 : Nat) : Int) ∧
      pidOf ("trace".data ++ '.' :: "12345".data) = ((12345 : Nat) : Int) ∧
      pidOf "x".data = 0 :=
  ⟨(c8_pid_amended "trace".data "12345".data 12345 (by decide) (by decide)).1,
   (c8_pid_amended "trace".data "12345".data 12345 (by decide) (by decide)).2.1,
   (c8_pid_amended "trace".data "12345".data 12345 (by decide) (by decide)).2.2
     "x".data (by decide)⟩

/-- Claim C9, counterexample: over the file set [bad, good] the parallel
pipeline produces totals (the one line of good) while the sequential driver
aborts with an error and produces no totals, so the two runs do not agree on
every set of input files. -/
theorem c9_counterexample :
    process_files_parallel fsMixed [["bad".data], ["good".data]] = some (⟨1, 1, 0⟩, 1) ∧
      sequentialDriver fsMixed ["bad".data, "good".data] = some (Except.error "bad".data) := by
  decide

/-- Claim C9, amended: when every input file is readable and scans without a
panic, any exactly-once assignment of the files to workers makes the
parallel aggregate equal the sequential totals and the sink row count, and
the aggregate equals the sum of the per-file stat contributions under any
interleaving (ordering) of the atomic updates, with no lost updates.  With
an unreadable file the two modes diverge (the sequential driver aborts), and
with a panicking line both runs crash rather than report totals. -/
theorem c9_aggregation_amended (fs : FileSys) (paths : List Str)
    (schedule : List (List Str))
    (hok : ∀ p ∈ paths, fileOk fs p = true)
    (hperm : List.Perm schedule.flatten paths) :
    sequentialDriver fs paths =
        some (Except.ok ((perFileContribs fs paths).sum, seqRows fs paths)) ∧
      process_files_parallel fs schedule =
        some ((perFileContribs fs paths).sum, (seqRows fs paths).length) ∧
      ∀ order : List ProcessStats,
        List.Perm order (perFileContribs fs schedule.flatten) →
          order.sum = (perFileContribs fs paths).sum := by
  have hokf : ∀ p ∈ schedule.flatten, fileOk fs p = true := fun p hp =>
    hok p (hperm.mem_iff.mp hp)
  have hcon : List.Perm (perFileContribs fs schedule.flatten) (perFileContribs fs paths) :=
    hperm.filterMap _
  obtain ⟨hseq, hlen⟩ := seq_ok fs paths hok
  have hpar := parallel_eq fs schedule hokf
  refine ⟨hseq, ?_, ?_⟩
  · rw [hpar, hcon.sum_eq, hlen, (hcon.map ProcessStats.parsed_lines).sum_eq]
  · intro order hord
    rw [hord.sum_eq, hcon.sum_eq]

/-- Claim C9, witness: one readable panic-free file, one worker. -/
theorem c9_aggregation_amended_witness :
    sequentialDriver fsGood1 ["good".data] =
        some (Except.ok ((perFileContribs fsGood1 ["good".data]).sum,
          seqRows fsGood1 ["good".data])) ∧
      process_files_parallel fsGood1 [["good".data]] =
        some ((perFileContribs fsGood1 ["good".data]).sum,
          (seqRows fsGood1 ["good".data]).length) ∧
      (perFileContribs fsGood1 (List.flatten [["good".data]])).sum =
        (perFileContribs fsGood1 ["good".data]).sum := by
  have H := c9_aggregation_amended fsGood1 ["good".data] [["good".data]] (by decide)
    (List.Perm.refl _)
  exact ⟨H.1, H.2.1, H.2.2 _ (List.Perm.refl _)⟩

/-- Claim C10: for a complete-format line (the structural split succeeds and
the duration block and error part are well-formed, which in particular
excludes the panicking reversed-slice regions) whose first return token is
not a valid integer, parse_regular still returns Some Event with
return_value = None and unfinished = false: a non-numeric return token never
makes the line a parse failure. -/
theorem c10_nonnumeric_return (line : Str) (q : Str × Str × Str × Str)
    (dur : Option Str) (r : Option Int × Option Str × Option Str)
    (h1 : regularSplit line = some q)
    (h2 : parseDuration q.2.2.2 = POpt.some dur)
    (h3 : parseRetErr (beforeDuration q.2.2.2) = POpt.some r)
    (h4 : parseReturnToken (splitn2 ' ' (beforeDuration q.2.2.2)).1 = none) :
    parse_regular line =
      POpt.some ⟨q.1, q.2.1, q.2.2.1, none, r.2.1, r.2.2, dur, false, false⟩ := by
  have hrv : r.1 = none := (parseRetErr_rv h3).trans h4
  have htail : parseRetTail q.2.2.2 = POpt.some (r.1, r.2.1, r.2.2, dur) := by
    unfold parseRetTail
    rw [h2, POpt.some_bind, h3, POpt.some_bind]
  have hfull : parse_regular line =
      POpt.some ⟨q.1, q.2.1, q.2.2.1, r.1, r.2.1, r.2.2, dur, false, false⟩ := by
    unfold parse_regular
    rw [h1, qTry_some, htail, POpt.some_bind]
  rw [hrv] at hfull
  exact hfull

/-- Claim C10, witness: the return token `?` yields Some Event with no
return value on a concrete line. -/
theorem c10_nonnumeric_return_witness :
    parse_regular lineW10 =
      POpt.some ⟨"a".data, "f".data, "x".data, none, none, none, none, false, false⟩ :=
  c10_nonnumeric_return lineW10 ("a".data, "f".data, "x".data, "?".data) none
    (none, none, none) (by decide) (by decide) (by decide) (by decide)

end StraceSpec
